import Mathlib

/-!
Verification development for the `atlanhq/lakehouse-solutions` repository.

Two programs are embedded:

* `snowflake/mdlh-table-maintenance/MDLH_table_refresh_repair.py` — a
  Streamlit app that lists schemas, finds stale Iceberg tables and repairs
  them with a REFRESH plus SET AUTO_REFRESH statement pair.
* `databricks/mdlh-setup/databricks_create_mdlh_setup.py` — a notebook that
  detects a Polaris catalog, lists its namespaces and mirrors each namespace
  and table into a target catalog.

External collaborators (the Snowpark session's query execution, the Spark SQL
engine, the pyiceberg catalog client) are modelled as explicit function
parameters returning `Except String α`: `.error e` models a raised Python
exception with message `e`, `.ok v` a normal return.  Python strings are
Lean `String`s; timestamps are integers counting seconds (UTC).
-/

/-- All-or-nothing evaluation of a Python loop or comprehension over `l`
whose body may raise: results are collected in order, and the first raised
exception propagates, discarding every partial result. -/
def exceptMap {α β : Type} (f : α → Except String β) :
    List α → Except String (List β)
  | [] => .ok []
  | x :: xs =>
    match f x with
    | .error e => .error e
    | .ok y =>
      match exceptMap f xs with
      | .error e => .error e
      | .ok ys => .ok (y :: ys)

namespace MDLH

/-- A value appearing in a result row returned by the query executor.
`Value.str` models a Python string cell, `Value.int` an integer or
timestamp cell (timestamps counted in seconds). -/
inductive Value
  | str (s : String)
  | int (n : Int)
deriving DecidableEq, Repr

/-- Python `row[i]` on a tuple: raises `IndexError` when out of range
(the raised error is what the surrounding `try` blocks catch). -/
def pyIndex (row : List Value) (i : Nat) : Except String Value :=
  match row.get? i with
  | some v => .ok v
  | none => .error "IndexError: tuple index out of range"

/-- `str(v)` applied to a row cell (MDLH_table_refresh_repair.py line 106). -/
def valueStr : Value → String
  | .str s => s
  | .int n => toString n

/-- Embeds the inline quoting rule used at lines 93, 117 and 156-159 of
MDLH_table_refresh_repair.py:
`f\x22{name}\x22 if not name.startswith(quote) else name`.
Python's `startswith` on the one-character double-quote string holds exactly
when the first character is the double quote, modelled via `data.head?`. -/
def quote_ident (s : String) : String :=
  if s.data.head? = some '\x22' then s else "\x22" ++ s ++ "\x22"

/-- `schema.replace` doubling embedded single quotes
(MDLH_table_refresh_repair.py line 121): for the one-character pattern,
Python's `replace` expands each single-quote character to two. -/
def escape_single_quotes (s : String) : String :=
  String.mk (s.data.flatMap (fun c =>
    if c = '\x27' then ['\x27', '\x27'] else [c]))

/-- The `INFORMATION_SCHEMA.SCHEMATA` query built by `list_schemas`
(lines 96-100; whitespace normalized to single spaces). -/
def schemataQuery (database : String) : String :=
  "SELECT DISTINCT SCHEMA_NAME FROM " ++ quote_ident database ++
    ".INFORMATION_SCHEMA.SCHEMATA ORDER BY SCHEMA_NAME"

/-- The `INFORMATION_SCHEMA.TABLES` staleness query built by
`find_stale_tables` (lines 124-134; whitespace normalized). -/
def staleQuery (database schema : String) (days_threshold : Int) : String :=
  "SELECT TABLE_NAME, LAST_ALTERED, ROW_COUNT FROM " ++ quote_ident database ++
    ".INFORMATION_SCHEMA.TABLES WHERE TABLE_SCHEMA = \x27" ++
    escape_single_quotes schema ++
    "\x27 AND ROW_COUNT > 0 AND LAST_ALTERED < DATEADD(day, -" ++
    toString days_threshold ++ ", CURRENT_TIMESTAMP()) ORDER BY LAST_ALTERED DESC"

/-- `list_schemas(conn, database)` (lines 89-111).  `exec` models
`execute_query(conn, ·)`, which reports and re-raises any engine error
(lines 85-87); the outer `except` of `list_schemas` catches it and returns
the empty list while reporting the error via `st.error` (modelled as the
second component).  `str(row[0])` raises `IndexError` on an empty row,
which the same `except` catches. -/
def list_schemas (exec : String → Except String (List (List Value)))
    (database : String) : List String × Option String :=
  match exec (schemataQuery database) with
  | .error e => ([], some ("Error listing schemas: " ++ e))
  | .ok results =>
    match exceptMap (fun row =>
        match pyIndex row 0 with
        | .error e => .error e
        | .ok v => .ok (valueStr v)) results with
    | .error e => ([], some ("Error listing schemas: " ++ e))
    | .ok schemas => (schemas, none)

/-- One stale-table record as built by `find_stale_tables` (lines 140-146). -/
structure StaleTableRecord where
  table_name : Value
  last_altered : Value
  row_count : Value
  database : String
  schema : String
deriving DecidableEq, Repr

/-- The per-row record construction of `find_stale_tables` (lines 139-146):
`row[0]` and `row[1]` are indexed unconditionally (raising `IndexError` when
absent), while `row[2]` is guarded by `len(row) > 2` with default `0`. -/
def rowToRecord (database schema : String) (row : List Value) :
    Except String StaleTableRecord :=
  match pyIndex row 0 with
  | .error e => .error e
  | .ok t0 =>
    match pyIndex row 1 with
    | .error e => .error e
    | .ok t1 =>
      .ok { table_name := t0, last_altered := t1,
            row_count := (match row.get? 2 with
              | some v => v
              | none => Value.int 0),
            database := database, schema := schema }

/-- `find_stale_tables(conn, database, schema, days_threshold)`
(lines 113-151).  The whole body runs under one `try`; any exception —
from query execution or from indexing a short row — is caught and the
function returns an empty list, reporting the error (second component). -/
def find_stale_tables (exec : String → Except String (List (List Value)))
    (database schema : String) (days_threshold : Int) :
    List StaleTableRecord × Option String :=
  match exec (staleQuery database schema days_threshold) with
  | .error e => ([], some ("Error finding stale tables: " ++ e))
  | .ok results =>
    match exceptMap (rowToRecord database schema) results with
    | .error e => ([], some ("Error finding stale tables: " ++ e))
    | .ok recs => (recs, none)

/-- The REFRESH statement built by `repair_table` (line 162). -/
def refreshQuery (database schema table_name : String) : String :=
  "ALTER ICEBERG TABLE " ++ quote_ident database ++ "." ++
    quote_ident schema ++ "." ++ quote_ident table_name ++ " REFRESH"

/-- The SET AUTO_REFRESH statement built by `repair_table` (line 166). -/
def autoRefreshQuery (database schema table_name : String) : String :=
  "ALTER ICEBERG TABLE " ++ quote_ident database ++ "." ++
    quote_ident schema ++ "." ++ quote_ident table_name ++
    " SET AUTO_REFRESH = TRUE"

/-- `repair_table(conn, database, schema, table_name)` (lines 153-171).
First component: the returned `(success, message)` pair — `(true, Success)`
when both statements execute, `(false, str(e))` when either raises.
Second component: instrumentation recording, in order, exactly the
statements handed to `execute_query`, so that "the AUTO_REFRESH statement is
never executed" is expressible. -/
def repair_table (exec : String → Except String Unit)
    (database schema table_name : String) : (Bool × String) × List String :=
  let refresh_query := refreshQuery database schema table_name
  let auto_refresh_query := autoRefreshQuery database schema table_name
  match exec refresh_query with
  | .error e => ((false, e), [refresh_query])
  | .ok _ =>
    match exec auto_refresh_query with
    | .error e => ((false, e), [refresh_query, auto_refresh_query])
    | .ok _ => ((true, "Success"), [refresh_query, auto_refresh_query])

/-- One entry of `repair_results` as built in `main` (lines 398-402). -/
structure RepairOutcome where
  table_name : String
  success : Bool
  message : String
deriving DecidableEq, Repr

/-- The outcome record appended for one table in `main`'s repair loop
(lines 391-402). -/
def repairOutcomeOf (exec : String → Except String Unit)
    (database schema table_name : String) : RepairOutcome :=
  { table_name := table_name,
    success := ((repair_table exec database schema table_name).1).1,
    message := ((repair_table exec database schema table_name).1).2 }

/-- The batch repair loop of `main` (lines 388-409): every selected table
is processed in selection order, one outcome appended per table,
unconditionally continuing after failures. -/
def repair_selected (exec : String → Except String Unit)
    (database schema : String) (tables : List String) : List RepairOutcome :=
  tables.map (repairOutcomeOf exec database schema)

/-- A row of the warehouse's `INFORMATION_SCHEMA.TABLES` view, the data the
staleness query reads. -/
structure InfoSchemaRow where
  table_schema : String
  table_name : String
  last_altered : Int
  row_count : Int
deriving DecidableEq, Repr

/-- Seconds in one day, the unit of `DATEADD(day, ...)`. -/
def secondsPerDay : Int := 86400

/-- Insert a row into a list sorted by `last_altered` descending. -/
def insertDesc (r : InfoSchemaRow) : List InfoSchemaRow → List InfoSchemaRow
  | [] => [r]
  | x :: xs =>
    if x.last_altered ≤ r.last_altered then r :: x :: xs
    else x :: insertDesc r xs

/-- Sort rows by `last_altered` descending (the `ORDER BY LAST_ALTERED
DESC` of the staleness query). -/
def sortByLastAlteredDesc : List InfoSchemaRow → List InfoSchemaRow
  | [] => []
  | x :: xs => insertDesc x (sortByLastAlteredDesc xs)

/-- Semantics of the staleness SQL statement issued by `find_stale_tables`
(source lines 124-134), evaluated over a model of
`INFORMATION_SCHEMA.TABLES`: keep rows of the given schema with
`ROW_COUNT > 0` and `LAST_ALTERED < DATEADD(day, -days, now)` (strict),
order by `LAST_ALTERED` descending, project the three selected columns.
The quoted/escaped literals in the statement denote the original schema
string, so the filter compares against `schema` itself. -/
def runStaleQuery (tbl : List InfoSchemaRow) (now : Int)
    (schema : String) (days_threshold : Int) : List (List Value) :=
  (sortByLastAlteredDesc (tbl.filter (fun r =>
      r.table_schema = schema ∧ r.row_count > 0 ∧
        r.last_altered < now - days_threshold * secondsPerDay))).map
    (fun r => [Value.str r.table_name, Value.int r.last_altered,
               Value.int r.row_count])

end MDLH

namespace Setup

/-!
Embedding of `databricks/mdlh-setup/databricks_create_mdlh_setup.py`.
-/

/-- The error message of the `RuntimeError` raised by `detect_catalog`
(line 73). -/
def noCatalogMsg : String := "No valid Polaris catalog found"

/-- The loop body of `PolarisSQLReader.detect_catalog` (lines 57-73) over a
remaining list of candidate names.  `env c` models the combined
`load_catalog` + `list_namespaces` round trip for candidate `c`: `.error`
when either call raises (caught at line 70), `.ok ns` when it returns the
namespace list `ns`.  A candidate is returned when its list is truthy,
i.e. non-empty (line 67). -/
def detectFrom (env : String → Except String (List String)) :
    List String → Except String (String × String)
  | [] => .error noCatalogMsg
  | c :: rest =>
    match env c with
    | .ok namespaces =>
      if namespaces = [] then detectFrom env rest else .ok (c, c)
    | .error _ => detectFrom env rest

/-- `PolarisSQLReader.detect_catalog` (lines 50-73): the candidates are
tried in the fixed order atlan-wh, then context_store. -/
def detect_catalog (env : String → Except String (List String)) :
    Except String (String × String) :=
  detectFrom env ["atlan-wh", "context_store"]

/-- A candidate catalog qualifies when connecting and listing its
namespaces succeeds with a non-empty list. -/
def qualifies (env : String → Except String (List String)) (c : String) :
    Prop :=
  ∃ ns, env c = .ok ns ∧ ns ≠ []

/-- A namespace identifier as returned by the raw catalog client: either a
flat string or a tuple of strings (`isinstance(ns, tuple)`, line 91). -/
inductive RawNamespace
  | str (s : String)
  | tup (t : List String)
deriving DecidableEq, Repr

/-- The comprehension element `ns[0] if isinstance(ns, tuple) else ns`
(line 91); Python `ns[0]` raises `IndexError` on an empty tuple, and that
exception is not caught in `list_namespaces`. -/
def normalizeNamespace : RawNamespace → Except String String
  | .str s => .ok s
  | .tup t =>
    match t.head? with
    | some x => .ok x
    | none => .error "IndexError: tuple index out of range"

/-- `PolarisSQLReader.list_namespaces` (lines 87-91), as a function of the
raw list returned by `self.catalog.list_namespaces()`: the comprehension
evaluates left to right and propagates any exception. -/
def list_namespaces (raw : List RawNamespace) : Except String (List String) :=
  exceptMap normalizeNamespace raw

/-- Restates, for comparison, the spec's description of the normalization:
tuple-shaped identifiers are replaced by their first element, flat strings
pass through unchanged. -/
def specNormalize : RawNamespace → String
  | .str s => s
  | .tup t => t.headD ""

/-- The external collaborators that `main`'s sync loop calls, one field per
call site.  `schemaResult ns` models `spark.sql(CREATE SCHEMA ...)`
(line 132); `listTablesResult ns` models `reader.list_tables(namespace)`
(line 141); `loadTable tid` models `reader.catalog.load_table` returning
the table's `metadata_location` attribute (lines 148-149), `.ok none` for a
Python `None` location. -/
structure SyncEnv where
  schemaResult : String → Except String Unit
  listTablesResult : String → Except String (List (List String))
  loadTable : List String → Except String (Option String)

/-- One externally visible step of the sync loop: the CREATE SCHEMA
statement issued for a namespace, the table listing of a namespace, or the
CREATE TABLE ... UNIFORM ICEBERG statement issued for one table (with its
metadata path). -/
inductive Action
  | createSchema (ns : String)
  | listTables (ns : String)
  | createTable (ns table path : String)
deriving DecidableEq, Repr

/-- The namespace an action concerns. -/
def Action.namespaceOf : Action → String
  | .createSchema ns => ns
  | .listTables ns => ns
  | .createTable ns _ _ => ns

/-- `get_metadata_path(table)` (lines 103-106): raises `ValueError` when
the metadata location is `None` or the empty string (Python falsiness). -/
def get_metadata_path (loc : Option String) : Except String String :=
  match loc with
  | none => .error "No metadata location"
  | some p => if p = "" then .error "No metadata location" else .ok p

/-- The per-table body of `main`'s inner loop (lines 146-168), as the list
of CREATE TABLE statements it issues (zero or one).  `load_table`,
`get_metadata_path` and `table_identifier[-1]` run in that order inside one
`try`; any exception is caught (lines 164-168) and nothing is issued.  The
result of `spark.sql` itself is likewise caught and does not affect which
statements are issued, so it is not a parameter. -/
def processTable (env : SyncEnv) (ns : String) (tid : List String) :
    List Action :=
  match env.loadTable tid with
  | .error _ => []
  | .ok loc =>
    match get_metadata_path loc with
    | .error _ => []
    | .ok path =>
      match tid.getLast? with
      | none => []
      | some name => [Action.createTable ns name path]

/-- The per-namespace body of `main`'s loop (lines 128-168): issue CREATE
SCHEMA; on failure skip the namespace (line 137).  Then list tables; on
failure skip (line 144).  Then process each table in listing order. -/
def processNamespace (env : SyncEnv) (ns : String) : List Action :=
  match env.schemaResult ns with
  | .error _ => [Action.createSchema ns]
  | .ok _ =>
    match env.listTablesResult ns with
    | .error _ => [Action.createSchema ns, Action.listTables ns]
    | .ok tables =>
      Action.createSchema ns :: Action.listTables ns ::
        tables.flatMap (processTable env ns)

/-- `main`'s namespace loop (lines 123-169) over the discovered namespace
list: a namespace equal to atlan-history is skipped entirely when
`HISTORY_NAMESPACE_SYNC` is disabled (lines 124-126); every other namespace
is processed in order, and the trace of issued actions is concatenated. -/
def syncMain (env : SyncEnv) (namespaces : List String)
    (historySync : Bool) : List Action :=
  namespaces.flatMap (fun ns =>
    if ns = "atlan-history" ∧ historySync = false then []
    else processNamespace env ns)

end Setup

open MDLH Setup

/-! ## Helper lemmas -/

/-- Wrapping any string in double quotes yields a string whose first
character is the double quote. -/
theorem quote_wrap_head (s : String) :
    ("\x22" ++ s ++ "\x22").data.head? = some '\x22' := by
  simp [String.data_append]

/-- The two repair statements for the same table differ (their lengths
differ by the length of their distinct suffixes). -/
theorem auto_ne_refresh (db sch t : String) :
    autoRefreshQuery db sch t ≠ refreshQuery db sch t := by
  intro h
  have h2 := congrArg String.length h
  simp only [autoRefreshQuery, refreshQuery, String.length_append] at h2
  have e1 : (" SET AUTO_REFRESH = TRUE" : String).length = 24 := rfl
  have e2 : (" REFRESH" : String).length = 8 := rfl
  omega

/-- Elements of a successful `exceptMap` all come from applying `f` to an
element of the input list. -/
theorem exceptMap_ok_mem {α β : Type} (f : α → Except String β) :
    ∀ (l : List α) (res : List β), exceptMap f l = .ok res →
      ∀ b ∈ res, ∃ a ∈ l, f a = .ok b := by
  intro l
  induction l with
  | nil =>
    intro res h b hb
    simp [exceptMap] at h
    subst h
    simp at hb
  | cons x xs ih =>
    intro res h b hb
    unfold exceptMap at h
    cases hfx : f x with
    | error e => rw [hfx] at h; simp at h
    | ok y =>
      rw [hfx] at h
      cases hxs : exceptMap f xs with
      | error e => rw [hxs] at h; simp at h
      | ok ys =>
        rw [hxs] at h
        simp at h
        subst h
        rcases List.mem_cons.mp hb with hb | hb
        · exact ⟨x, List.mem_cons_self x xs, hb ▸ hfx⟩
        · obtain ⟨a, ha, hfa⟩ := ih ys hxs b hb
          exact ⟨a, List.mem_cons_of_mem x ha, hfa⟩

/-- When `f` succeeds on every element, `exceptMap` succeeds and its result
is pointwise related to the input by any property implied by success. -/
theorem exceptMap_forall₂ {α β : Type} (f : α → Except String β)
    (P : α → β → Prop) (hP : ∀ a b, f a = .ok b → P a b) :
    ∀ l : List α, (∀ a ∈ l, ∃ b, f a = .ok b) →
      ∃ res, exceptMap f l = .ok res ∧ List.Forall₂ P l res := by
  intro l
  induction l with
  | nil => intro _; exact ⟨[], rfl, List.Forall₂.nil⟩
  | cons x xs ih =>
    intro h
    obtain ⟨y, hy⟩ := h x (List.mem_cons_self x xs)
    obtain ⟨ys, hys, hall⟩ := ih (fun a ha => h a (List.mem_cons_of_mem x ha))
    refine ⟨y :: ys, ?_, List.Forall₂.cons (hP x y hy) hall⟩
    unfold exceptMap
    rw [hy, hys]

/-- Membership is preserved by `insertDesc`. -/
theorem mem_insertDesc (r x : InfoSchemaRow) (l : List InfoSchemaRow) :
    x ∈ insertDesc r l ↔ x = r ∨ x ∈ l := by
  induction l with
  | nil => simp [insertDesc]
  | cons y ys ih =>
    unfold insertDesc
    by_cases h : y.last_altered ≤ r.last_altered
    · simp [h]
    · simp [h, ih]
      tauto

/-- Membership is preserved by `sortByLastAlteredDesc`. -/
theorem mem_sortByLastAlteredDesc (x : InfoSchemaRow) :
    ∀ l : List InfoSchemaRow, x ∈ sortByLastAlteredDesc l ↔ x ∈ l := by
  intro l
  induction l with
  | nil => simp [sortByLastAlteredDesc]
  | cons y ys ih =>
    unfold sortByLastAlteredDesc
    rw [mem_insertDesc]
    simp [ih]

/-! ## C8: identifier quoting is idempotent -/

/-- C8: applying the quoting rule (wrap in double quotes unless already
quoted) twice returns the same string as applying it once: an
already-quoted identifier is never double-quoted. -/
theorem quote_ident_idempotent (s : String) :
    quote_ident (quote_ident s) = quote_ident s := by
  unfold quote_ident
  by_cases h : s.data.head? = some '\x22'
  · simp [h]
  · simp [h, quote_wrap_head]

/-! ## C2: repair_table success iff both statements succeed -/

/-- C2: `repair_table` returns success exactly when both the REFRESH and
the SET AUTO_REFRESH statements execute without error, and when the
REFRESH statement raises, the returned outcome is the failure carrying the
error text and the AUTO_REFRESH statement is never executed (the list of
issued statements is just the REFRESH statement). -/
theorem repair_table_success_iff (exec : String → Except String Unit)
    (db sch t : String) :
    (((repair_table exec db sch t).1).1 = true ↔
      (exec (refreshQuery db sch t)).isOk = true ∧
        (exec (autoRefreshQuery db sch t)).isOk = true) ∧
    (∀ e, exec (refreshQuery db sch t) = .error e →
      (repair_table exec db sch t).1 = (false, e) ∧
        autoRefreshQuery db sch t ∉ (repair_table exec db sch t).2) := by
  constructor
  · cases h1 : exec (refreshQuery db sch t) with
    | error e => simp [repair_table, h1, Except.isOk, Except.toBool]
    | ok u =>
      cases h2 : exec (autoRefreshQuery db sch t) with
      | error e => simp [repair_table, h1, h2, Except.isOk, Except.toBool]
      | ok v => simp [repair_table, h1, h2, Except.isOk, Except.toBool]
  · intro e he
    refine ⟨by simp [repair_table, he], ?_⟩
    simp [repair_table, he]
    exact auto_ne_refresh db sch t

/-- Concrete executor for the C2 witness: the REFRESH statement for table
t raises, everything else succeeds. -/
def exec2w : String → Except String Unit := fun q =>
  if q = MDLH.refreshQuery "d" "s" "t" then .error "boom" else .ok ()

/-- C2 witness: at a concrete executor whose REFRESH statement fails, the
outcome is the failure with the error text and the AUTO_REFRESH statement
is not among the issued statements. -/
theorem repair_table_success_iff_witness :
    (MDLH.repair_table exec2w "d" "s" "t").1 = (false, "boom") ∧
      MDLH.autoRefreshQuery "d" "s" "t" ∉
        (MDLH.repair_table exec2w "d" "s" "t").2 :=
  (repair_table_success_iff exec2w "d" "s" "t").2 "boom" (by simp [exec2w])

/-! ## C3: batch repair produces one outcome per table, in order -/

/-- C3: the batch repair loop processes the selected tables in order,
producing exactly one outcome per selected table whose success/message are
those of `repair_table` on that table; in particular for a selection
[A, B, C] where B's repair fails and A's and C's succeed, the outcome list
has length 3 with successes [true, false, true] (C is still attempted). -/
theorem repair_selected_outcomes (exec : String → Except String Unit)
    (db sch : String) :
    (∀ tables : List String,
      (repair_selected exec db sch tables).map RepairOutcome.table_name =
        tables ∧
      ∀ o ∈ repair_selected exec db sch tables,
        o.success = ((repair_table exec db sch o.table_name).1).1 ∧
        o.message = ((repair_table exec db sch o.table_name).1).2) ∧
    (∀ A B C : String,
      ((repair_table exec db sch A).1).1 = true →
      ((repair_table exec db sch B).1).1 = false →
      ((repair_table exec db sch C).1).1 = true →
      (repair_selected exec db sch [A, B, C]).length = 3 ∧
      (repair_selected exec db sch [A, B, C]).map RepairOutcome.success =
        [true, false, true]) := by
  constructor
  · intro tables
    constructor
    · simp only [repair_selected, List.map_map]
      have hcomp :
          RepairOutcome.table_name ∘ repairOutcomeOf exec db sch = id := by
        funext a
        rfl
      rw [hcomp, List.map_id]
    · intro o ho
      simp [repair_selected, List.mem_map] at ho
      obtain ⟨a, _, rfl⟩ := ho
      simp [repairOutcomeOf]
  · intro A B C hA hB hC
    refine ⟨rfl, ?_⟩
    simp [repair_selected, repairOutcomeOf, hA, hB, hC]

/-- Concrete executor for the C3 witness: only table b's REFRESH raises. -/
def exec3w : String → Except String Unit := fun q =>
  if q = MDLH.refreshQuery "d" "s" "b" then .error "boom" else .ok ()

/-- C3 witness: over the concrete selection [a, b, c] where b's repair
fails, the outcome list has length 3 and successes [true, false, true]. -/
theorem repair_selected_outcomes_witness :
    (MDLH.repair_selected exec3w "d" "s" ["a", "b", "c"]).length = 3 ∧
      (MDLH.repair_selected exec3w "d" "s" ["a", "b", "c"]).map
        MDLH.RepairOutcome.success = [true, false, true] :=
  (repair_selected_outcomes exec3w "d" "s").2 "a" "b" "c"
    (by decide) (by decide) (by decide)

/-! ## C1: detect_catalog ordered fallback -/

/-- A qualifying candidate is returned immediately with itself as
catalog and warehouse name. -/
theorem detectFrom_qualifies (env : String → Except String (List String))
    (c : String) (rest : List String) (h : qualifies env c) :
    detectFrom env (c :: rest) = .ok (c, c) := by
  obtain ⟨ns, hc, hne⟩ := h
  simp [detectFrom, hc, hne]

/-- A non-qualifying candidate (connection/listing raises, or the
namespace list is empty) is skipped. -/
theorem detectFrom_skips (env : String → Except String (List String))
    (c : String) (rest : List String) (h : ¬ qualifies env c) :
    detectFrom env (c :: rest) = detectFrom env rest := by
  cases hc : env c with
  | error e => simp [detectFrom, hc]
  | ok ns =>
    have hns : ns = [] := by
      by_contra hne
      exact h ⟨ns, hc, hne⟩
    subst hns
    simp [detectFrom, hc]

/-- C1: `detect_catalog` tries atlan-wh then context_store in that fixed
order; it returns the first candidate for which connecting succeeds and
the namespace list is non-empty, falls back to context_store only when
atlan-wh does not qualify, and raises the no-catalog error when neither
qualifies. -/
theorem detect_catalog_ordered_fallback
    (env : String → Except String (List String)) :
    (qualifies env "atlan-wh" →
      detect_catalog env = .ok ("atlan-wh", "atlan-wh")) ∧
    (¬ qualifies env "atlan-wh" → qualifies env "context_store" →
      detect_catalog env = .ok ("context_store", "context_store")) ∧
    (¬ qualifies env "atlan-wh" → ¬ qualifies env "context_store" →
      detect_catalog env = .error noCatalogMsg) := by
  refine ⟨?_, ?_, ?_⟩
  · intro h1
    exact detectFrom_qualifies env "atlan-wh" ["context_store"] h1
  · intro h1 h2
    rw [detect_catalog, detectFrom_skips env "atlan-wh" ["context_store"] h1]
    exact detectFrom_qualifies env "context_store" [] h2
  · intro h1 h2
    rw [detect_catalog, detectFrom_skips env "atlan-wh" ["context_store"] h1,
      detectFrom_skips env "context_store" [] h2]
    rfl

/-- C1 witness environment: both candidates accessible and non-empty. -/
def env1a : String → Except String (List String) := fun _ => .ok ["ns1"]

/-- C1 witness environment: atlan-wh inaccessible, context_store fine. -/
def env1b : String → Except String (List String) := fun c =>
  if c = "context_store" then .ok ["ns1"] else .error "401"

/-- C1 witness environment: every candidate lists zero namespaces. -/
def env1c : String → Except String (List String) := fun _ => .ok []

/-- C1 witness: on the three concrete environments, detection returns
atlan-wh, falls back to context_store, and raises, respectively. -/
theorem detect_catalog_ordered_fallback_witness :
    Setup.detect_catalog env1a = .ok ("atlan-wh", "atlan-wh") ∧
    Setup.detect_catalog env1b = .ok ("context_store", "context_store") ∧
    Setup.detect_catalog env1c = .error Setup.noCatalogMsg :=
  ⟨(detect_catalog_ordered_fallback env1a).1 ⟨["ns1"], rfl, by decide⟩,
   (detect_catalog_ordered_fallback env1b).2.1
     (by rintro ⟨ns, h, hne⟩; simp [env1b] at h)
     ⟨["ns1"], by simp [env1b], by decide⟩,
   (detect_catalog_ordered_fallback env1c).2.2
     (by rintro ⟨ns, h, hne⟩; simp [env1c] at h; exact hne h)
     (by rintro ⟨ns, h, hne⟩; simp [env1c] at h; exact hne h)⟩

/-! ## C7: the detector never raises past its boundary -/

/-- C7: `find_stale_tables` and `list_schemas` are total functions into a
pair of a list and an optionally reported error (no exception escapes the
embedding of their outermost try/except); whenever the underlying query
execution fails, the caller receives the empty list alongside the reported
error text. -/
theorem detector_query_failure_yields_empty
    (exec : String → Except String (List (List Value)))
    (database schema : String) (days : Int) (e1 e2 : String) :
    (exec (staleQuery database schema days) = .error e1 →
      find_stale_tables exec database schema days =
        ([], some ("Error finding stale tables: " ++ e1))) ∧
    (exec (schemataQuery database) = .error e2 →
      list_schemas exec database =
        ([], some ("Error listing schemas: " ++ e2))) := by
  constructor
  · intro h
    simp [find_stale_tables, h]
  · intro h
    simp [list_schemas, h]

/-- C7 witness executor: every query raises. -/
def exec7w : String → Except String (List (List MDLH.Value)) :=
  fun _ => .error "boom"

/-- C7 witness: at the always-failing executor, both functions return the
empty list with the reported error. -/
theorem detector_query_failure_yields_empty_witness :
    MDLH.find_stale_tables exec7w "DB" "S" 1 =
      ([], some ("Error finding stale tables: " ++ "boom")) ∧
    MDLH.list_schemas exec7w "DB" =
      ([], some ("Error listing schemas: " ++ "boom")) :=
  ⟨(detector_query_failure_yields_empty exec7w "DB" "S" 1 "boom" "boom").1 rfl,
   (detector_query_failure_yields_empty exec7w "DB" "S" 1 "boom" "boom").2 rfl⟩

/-! ## C4: find_stale_tables returns only stale, non-empty tables -/

/-- C4: when the query executor evaluates the issued staleness query with
its SQL semantics over any model of INFORMATION_SCHEMA.TABLES, every
record returned by `find_stale_tables` has a row count other than 0 and a
last-altered timestamp strictly before now minus the threshold in days
(so a table altered exactly at the boundary is excluded). -/
theorem find_stale_tables_only_stale
    (exec : String → Except String (List (List Value)))
    (tbl : List InfoSchemaRow) (now : Int) (db sch : String) (days : Int)
    (h : exec (staleQuery db sch days) = .ok (runStaleQuery tbl now sch days)) :
    ∀ rec ∈ (find_stale_tables exec db sch days).1,
      rec.row_count ≠ Value.int 0 ∧
        ∃ n, rec.last_altered = Value.int n ∧
          n < now - days * secondsPerDay := by
  intro rec hrec
  cases hm : exceptMap (rowToRecord db sch) (runStaleQuery tbl now sch days) with
  | error e => simp [find_stale_tables, h, hm] at hrec
  | ok recs =>
    simp only [find_stale_tables, h, hm] at hrec
    obtain ⟨row, hrow, hfr⟩ :=
      exceptMap_ok_mem (rowToRecord db sch) _ recs hm rec hrec
    simp only [runStaleQuery, List.mem_map] at hrow
    obtain ⟨r, hrmem, hproj⟩ := hrow
    rw [mem_sortByLastAlteredDesc] at hrmem
    rw [List.mem_filter] at hrmem
    obtain ⟨-, hcond⟩ := hrmem
    simp only [decide_eq_true_eq] at hcond
    obtain ⟨-, hrc, hla⟩ := hcond
    subst hproj
    simp [rowToRecord, pyIndex] at hfr
    subst hfr
    refine ⟨?_, r.last_altered, rfl, hla⟩
    intro hcontra
    simp at hcontra
    omega

/-- C4 witness model of INFORMATION_SCHEMA.TABLES: one stale table with
rows, one freshly altered table. -/
def tbl4 : List MDLH.InfoSchemaRow :=
  [{ table_schema := "S", table_name := "t1", last_altered := 0,
     row_count := 7 },
   { table_schema := "S", table_name := "t2", last_altered := 999999,
     row_count := 3 }]

/-- C4 witness executor: evaluates the staleness query over `tbl4` at
time 1000000. -/
def exec4w : String → Except String (List (List MDLH.Value)) :=
  fun _ => .ok (MDLH.runStaleQuery tbl4 1000000 "S" 1)

/-- C4 witness: the concrete record returned for the stale table has a
non-zero row count and a timestamp strictly below the one-day cutoff. -/
theorem find_stale_tables_only_stale_witness :
    ({ table_name := MDLH.Value.str "t1",
       last_altered := MDLH.Value.int 0,
       row_count := MDLH.Value.int 7,
       database := "DB", schema := "S" } : MDLH.StaleTableRecord).row_count ≠
        MDLH.Value.int 0 ∧
      ∃ n, ({ table_name := MDLH.Value.str "t1",
              last_altered := MDLH.Value.int 0,
              row_count := MDLH.Value.int 7,
              database := "DB", schema := "S" } :
                MDLH.StaleTableRecord).last_altered = MDLH.Value.int n ∧
        n < 1000000 - 1 * MDLH.secondsPerDay :=
  find_stale_tables_only_stale exec4w tbl4 1000000 "DB" "S" 1 rfl
    { table_name := MDLH.Value.str "t1",
      last_altered := MDLH.Value.int 0,
      row_count := MDLH.Value.int 7,
      database := "DB", schema := "S" } (by decide)

/-! ## C9: list_namespaces normalizes tuple identifiers -/

/-- C9: when every tuple-shaped identifier reported by the catalog is
non-empty (so that a first element exists), `list_namespaces` returns
exactly the reported namespaces in listing order, with tuples replaced by
their first element and flat strings passed through unchanged. -/
theorem list_namespaces_normalizes (raw : List RawNamespace)
    (h : ∀ t, RawNamespace.tup t ∈ raw → t ≠ []) :
    Setup.list_namespaces raw = .ok (raw.map specNormalize) := by
  induction raw with
  | nil => rfl
  | cons x xs ih =>
    have hx : normalizeNamespace x = .ok (specNormalize x) := by
      cases x with
      | str s => rfl
      | tup t =>
        have hne : t ≠ [] := h t (List.mem_cons_self _ _)
        cases t with
        | nil => exact absurd rfl hne
        | cons a as => rfl
    have hxs := ih (fun t ht => h t (List.mem_cons_of_mem x ht))
    simp only [Setup.list_namespaces] at hxs ⊢
    unfold exceptMap
    rw [hx, hxs]
    simp

/-- C9 witness input: a two-element tuple identifier and a flat string. -/
def raw9 : List Setup.RawNamespace :=
  [Setup.RawNamespace.tup ["a", "b"], Setup.RawNamespace.str "c"]

/-- C9 witness: on the concrete raw list, normalization yields the first
tuple elements and the flat string, in order. -/
theorem list_namespaces_normalizes_witness :
    Setup.list_namespaces raw9 = .ok (raw9.map Setup.specNormalize) :=
  list_namespaces_normalizes raw9 (by
    intro t ht
    simp [raw9] at ht
    subst ht
    decide)

/-! ## C5: a schema-creation failure skips only that namespace -/

/-- C5: when schema creation fails for namespace N (and N is not itself
skipped by the history flag), N contributes exactly the attempted CREATE
SCHEMA action — no table listing and no table creation — and every
namespace before and after N in the discovered sequence is still processed
exactly as it would be on its own. -/
theorem sync_schema_failure_isolated (env : SyncEnv) (l1 l2 : List String)
    (N : String) (hist : Bool) (e : String)
    (hN : env.schemaResult N = .error e)
    (hskip : ¬ (N = "atlan-history" ∧ hist = false)) :
    processNamespace env N = [Action.createSchema N] ∧
    syncMain env (l1 ++ N :: l2) hist =
      syncMain env l1 hist ++
        Action.createSchema N :: syncMain env l2 hist := by
  have h1 : processNamespace env N = [Action.createSchema N] := by
    simp [processNamespace, hN]
  refine ⟨h1, ?_⟩
  simp only [syncMain, List.flatMap_append, List.flatMap_cons]
  rw [if_neg hskip, h1]
  simp

/-- C5 witness environment: schema creation is denied exactly for the
namespace bad; table listing and table loading succeed elsewhere. -/
def env5 : Setup.SyncEnv :=
  { schemaResult := fun ns => if ns = "bad" then .error "denied" else .ok (),
    listTablesResult := fun _ => .ok [["ns", "tbl1"]],
    loadTable := fun _ => .ok (some "s3://bucket/meta.json") }

/-- C5 witness: with namespaces [a, bad, c], the failing namespace
contributes only its attempted CREATE SCHEMA and a and c are processed
around it. -/
theorem sync_schema_failure_isolated_witness :
    Setup.processNamespace env5 "bad" = [Setup.Action.createSchema "bad"] ∧
    Setup.syncMain env5 (["a"] ++ "bad" :: ["c"]) true =
      Setup.syncMain env5 ["a"] true ++
        Setup.Action.createSchema "bad" :: Setup.syncMain env5 ["c"] true :=
  sync_schema_failure_isolated env5 ["a"] ["c"] "bad" true "denied"
    (by simp [env5]) (by simp)

/-! ## C6: the reserved history namespace is never touched -/

/-- Actions produced for a table all concern the processed namespace. -/
theorem processTable_ns (env : SyncEnv) (ns : String) (tid : List String) :
    ∀ a ∈ processTable env ns tid, a.namespaceOf = ns := by
  intro a ha
  unfold processTable at ha
  split at ha
  · simp at ha
  · split at ha
    · simp at ha
    · split at ha
      · simp at ha
      · simp at ha
        subst ha
        rfl

/-- Actions produced while processing a namespace all concern it. -/
theorem processNamespace_ns (env : SyncEnv) (ns : String) :
    ∀ a ∈ processNamespace env ns, a.namespaceOf = ns := by
  intro a ha
  unfold processNamespace at ha
  split at ha
  · simp at ha
    subst ha
    rfl
  · split at ha
    · simp at ha
      rcases ha with rfl | rfl <;> rfl
    · simp at ha
      rcases ha with rfl | rfl | ⟨tid, htid, hmem⟩
      · rfl
      · rfl
      · exact processTable_ns env ns tid a hmem

/-- Unfolding the sync loop over the first namespace. -/
theorem syncMain_cons (env : SyncEnv) (x : String) (xs : List String)
    (hist : Bool) :
    syncMain env (x :: xs) hist =
      (if x = "atlan-history" ∧ hist = false then []
        else processNamespace env x) ++ syncMain env xs hist := by
  simp only [syncMain, List.flatMap_cons]

/-- C6: with history sync disabled, no action of the whole run — neither a
CREATE SCHEMA nor a table listing nor a CREATE TABLE — concerns the
reserved atlan-history namespace, and the run's trace is exactly that of
processing every other namespace normally, in order. -/
theorem sync_history_never_touched (env : SyncEnv)
    (namespaces : List String) :
    (∀ a ∈ syncMain env namespaces false, a.namespaceOf ≠ "atlan-history") ∧
    syncMain env namespaces false =
      (namespaces.filter (fun ns => ns ≠ "atlan-history")).flatMap
        (processNamespace env) := by
  induction namespaces with
  | nil => exact ⟨by simp [syncMain], by simp [syncMain]⟩
  | cons x xs ih =>
    obtain ⟨ih1, ih2⟩ := ih
    by_cases hx : x = "atlan-history"
    · refine ⟨?_, ?_⟩
      · intro a ha
        rw [syncMain_cons, if_pos ⟨hx, rfl⟩, List.nil_append] at ha
        exact ih1 a ha
      · have hfilter : List.filter (fun ns => ns ≠ "atlan-history") (x :: xs)
            = List.filter (fun ns => ns ≠ "atlan-history") xs := by
          simp [List.filter_cons, hx]
        rw [syncMain_cons, if_pos ⟨hx, rfl⟩, List.nil_append, hfilter]
        exact ih2
    · refine ⟨?_, ?_⟩
      · intro a ha
        rw [syncMain_cons, if_neg (fun hc => hx hc.1)] at ha
        rcases List.mem_append.mp ha with hmem | hmem
        · rw [processNamespace_ns env x a hmem]
          exact hx
        · exact ih1 a hmem
      · have hfilter : List.filter (fun ns => ns ≠ "atlan-history") (x :: xs)
            = x :: List.filter (fun ns => ns ≠ "atlan-history") xs := by
          simp [List.filter_cons, hx]
        rw [syncMain_cons, if_neg (fun hc => hx hc.1), hfilter,
          List.flatMap_cons, ih2]

/-- C6 witness environment: everything succeeds. -/
def env6 : Setup.SyncEnv :=
  { schemaResult := fun _ => .ok (),
    listTablesResult := fun _ => .ok [["ns", "tbl1"]],
    loadTable := fun _ => .ok (some "s3://bucket/meta.json") }

/-- C6 witness: with the history namespace present and the flag disabled,
the run's trace is exactly the trace over the other namespace, and a
concrete action of that trace does not concern atlan-history. -/
theorem sync_history_never_touched_witness :
    Setup.syncMain env6 ["atlan-history", "ns1"] false =
      ((["atlan-history", "ns1"].filter
        (fun ns => ns ≠ "atlan-history")).flatMap
          (Setup.processNamespace env6)) ∧
    (Setup.Action.createSchema "ns1").namespaceOf ≠ "atlan-history" :=
  ⟨(sync_history_never_touched env6 ["atlan-history", "ns1"]).2,
   (sync_history_never_touched env6 ["atlan-history", "ns1"]).1
     (Setup.Action.createSchema "ns1") (by decide)⟩

/-! ## C10: records for short result rows -/

/-- C10 counterexample executor: the staleness query returns a single row
with one column. -/
def exec10c : String → Except String (List (List MDLH.Value)) :=
  fun _ => .ok [[MDLH.Value.int 5]]

/-- C10 counterexample: the executor returns one row with fewer than three
columns, yet no record is produced for it — indexing `row[1]` raises
`IndexError`, the outer except empties the whole result — contradicting
the claim that every such row yields a record with row count 0. -/
theorem find_stale_short_row_counterexample :
    exec10c (MDLH.staleQuery "DB" "S" 1) = .ok [[MDLH.Value.int 5]] ∧
    ([MDLH.Value.int 5] : List MDLH.Value).length < 3 ∧
    (MDLH.find_stale_tables exec10c "DB" "S" 1).1 = [] :=
  ⟨rfl, by decide, by decide⟩

/-- A row with at least two columns yields a record. -/
theorem rowToRecord_isOk (db sch : String) (row : List Value)
    (h2 : 2 ≤ row.length) : ∃ r, rowToRecord db sch row = .ok r := by
  obtain ⟨v0, hv0⟩ : ∃ v, row.get? 0 = some v :=
    ⟨_, List.get?_eq_get (by omega)⟩
  obtain ⟨v1, hv1⟩ : ∃ v, row.get? 1 = some v :=
    ⟨_, List.get?_eq_get (by omega)⟩
  refine ⟨{ table_name := v0, last_altered := v1,
            row_count := (match row.get? 2 with
              | some v => v
              | none => Value.int 0),
            database := db, schema := sch }, ?_⟩
  unfold rowToRecord pyIndex
  rw [hv0, hv1]

/-- Any record successfully built from a row carries the database and
schema arguments, and a missing third column becomes row count 0. -/
theorem rowToRecord_fields (db sch : String) (row : List Value)
    (r : StaleTableRecord) (h : rowToRecord db sch row = .ok r) :
    r.database = db ∧ r.schema = sch ∧
      (row.length < 3 → r.row_count = Value.int 0) := by
  unfold rowToRecord pyIndex at h
  split at h
  · simp at h
  · split at h
    · simp at h
    · simp at h
      subst h
      refine ⟨rfl, rfl, ?_⟩
      intro hlen
      have hnone : row[2]? = none := List.getElem?_eq_none (by omega)
      simp [hnone]

/-- C10 as amended: for every result row with at least two columns, a
record is produced — when such a row has fewer than three columns its
row count is 0 — and every produced record carries the database and schema
arguments; a row with fewer than two columns instead raises inside the
loop, so the whole call returns the empty list. -/
theorem find_stale_rows_with_two_columns
    (exec : String → Except String (List (List Value)))
    (db sch : String) (days : Int) (rows : List (List Value))
    (h : exec (staleQuery db sch days) = .ok rows)
    (h2 : ∀ row ∈ rows, 2 ≤ row.length) :
    List.Forall₂ (fun (row : List Value) (r : StaleTableRecord) =>
        r.database = db ∧ r.schema = sch ∧
          (row.length < 3 → r.row_count = Value.int 0))
      rows (find_stale_tables exec db sch days).1 := by
  obtain ⟨res, hres, hall⟩ :=
    exceptMap_forall₂ (rowToRecord db sch)
      (fun row r => r.database = db ∧ r.schema = sch ∧
        (row.length < 3 → r.row_count = Value.int 0))
      (fun row r hr => rowToRecord_fields db sch row r hr) rows
      (fun row hrow => rowToRecord_isOk db sch row (h2 row hrow))
  simpa [find_stale_tables, h, hres] using hall

/-- C10 witness executor: one two-column row. -/
def exec10w : String → Except String (List (List MDLH.Value)) :=
  fun _ => .ok [[MDLH.Value.str "t1", MDLH.Value.int 4]]

/-- C10 witness: the concrete two-column row yields exactly one record,
pointwise satisfying the amended property. -/
theorem find_stale_rows_with_two_columns_witness :
    List.Forall₂ (fun (row : List MDLH.Value) (r : MDLH.StaleTableRecord) =>
        r.database = "DB" ∧ r.schema = "S" ∧
          (row.length < 3 → r.row_count = MDLH.Value.int 0))
      [[MDLH.Value.str "t1", MDLH.Value.int 4]]
      (MDLH.find_stale_tables exec10w "DB" "S" 1).1 :=
  find_stale_rows_with_two_columns exec10w "DB" "S" 1
    [[MDLH.Value.str "t1", MDLH.Value.int 4]] rfl (by decide)
